import Mathlib

/-!
Shallow embedding of the volcengine-llm-rust-sdk streaming decoder
(`src/lib.rs`, `chat_completion_stream` and `send_and_log`) and of the
chunk-response schema (`src/api/chat_completion.rs`).

Transport byte chunks are `List Nat` (one `Nat` per byte); a stream is a
`List (List Nat)` of chunks in arrival order.  Rust panics (out-of-bounds
indexing) are modelled as an explicit `Except` error, distinct from the
`serde_json` decode error that `chat_completion_stream` propagates with `?`.
-/

namespace VolcSdk

/-- `const LINE_FEED: u8 = 10` (src/lib.rs line 15). -/
def LINE_FEED : Nat := 10

/-- `const SEARCH_TAIL: usize = 10` (src/lib.rs line 16). -/
def SEARCH_TAIL : Nat := 10

/-- `const LINE_FEED_COUNT: usize = 2` (src/lib.rs line 17). -/
def LINE_FEED_COUNT : Nat := 2

/-- `const LEFT_SIGN: u8 = 123` (src/lib.rs line 18), the byte of the opening brace. -/
def LEFT_SIGN : Nat := 123

/-- A Rust panic raised while processing a chunk. -/
inductive Panik where
  | indexOutOfBounds
deriving DecidableEq, Repr

/-- `chunk[i]`: slice indexing, which panics when `i` is out of bounds. -/
def getBang (xs : List Nat) (i : Nat) : Except Panik Nat :=
  if h : i < xs.length then .ok (xs.get ⟨i, h⟩) else .error .indexOutOfBounds

/-- ASCII text as a byte list (all inputs used here are 7-bit ASCII, where
UTF-8 bytes coincide with code points). -/
def asciiBytes (s : String) : List Nat :=
  s.data.map Char.toNat

/-- One iteration of the scan loop at `src/lib.rs` lines 80-91, carrying
`line_count`.  The body indexes `chunk[i]`, and (under the guard
`i < chunk_len - LINE_FEED_COUNT`, a truncating `usize` subtraction)
also `chunk[i + LINE_FEED_COUNT]` inside the `info!` call; `last_pos`
is the local set to `i` on line 85 and immediately compared on line 86. -/
def scanStep (chunk : List Nat) (lineCount i : Nat) : Except Panik Nat :=
  match getBang chunk i with
  | .error e => .error e
  | .ok b =>
    if b = LINE_FEED then
      if i < chunk.length - LINE_FEED_COUNT then
        match getBang chunk (i + LINE_FEED_COUNT) with
        | .error e => .error e
        | .ok _ =>
          let lastPos := i
          .ok (if lastPos + 1 = i then lineCount + 1 else lineCount)
      else
        .ok lineCount
    else
      .ok lineCount

/-- The scan loop of `src/lib.rs` lines 75-91: `search_len = chunk_len / 2 +
SEARCH_TAIL`, then `for i in 0..search_len { ... }`, returning the final
`line_count` (or the panic that aborts the loop). -/
def scanChunk (chunk : List Nat) : Except Panik Nat :=
  (List.range (chunk.length / 2 + SEARCH_TAIL)).foldlM (scanStep chunk) 0

/-- The brace-search loop of `src/lib.rs` lines 94-100: `pos` starts at 0 and
is set to the index of the first `LEFT_SIGN` byte, if any. -/
def findBraceFrom : List Nat → Nat → Option Nat
  | [], _ => none
  | b :: rest, i => if b = LEFT_SIGN then some i else findBraceFrom rest (i + 1)

/-- `pos` after the loop of `src/lib.rs` lines 94-100: first index of `{`,
or 0 when the chunk holds no `{` byte. -/
def findBracePos (chunk : List Nat) : Nat :=
  match findBraceFrom chunk 0 with
  | some i => i
  | none => 0

/-- `&chunk[pos..]` on `src/lib.rs` line 102: the slice handed to
`serde_json::from_slice`. -/
def sliceForDecode (chunk : List Nat) : List Nat :=
  chunk.drop (findBracePos chunk)

/-! ## A JSON value model for `serde_json`

`serde_json::from_slice::<ChatCompletionChunkResponse>` is modelled in two
stages: a byte-level parser producing a `Json` value (rejecting trailing
non-whitespace, as `from_slice` does), then a schema decoder that follows the
`Deserialize` derives of `src/api/chat_completion.rs`.  Number literals are
modelled as integers: every numeric field of the chunk schema (`created`,
`index`, the `usage` counters) is an integer type; fraction/exponent literals
(which occur only inside the `logprobs` subtree, kept as raw JSON below) are
outside this fragment and are rejected by the byte-level parser. -/

inductive Json where
  | null
  | bool (b : Bool)
  | num (n : Int)
  | str (s : List Nat)
  | arr (elems : List Json)
  | obj (fields : List (List Nat × Json))

/-- JSON insignificant whitespace bytes: space, tab, LF, CR. -/
def isWsByte (b : Nat) : Bool :=
  decide (b = 32) || decide (b = 9) || decide (b = 10) || decide (b = 13)

/-- Skip leading whitespace. -/
def skipWs : List Nat → List Nat
  | [] => []
  | b :: rest => if isWsByte b then skipWs rest else b :: rest

/-- Decode one escape character after a backslash (`\uXXXX` escapes are not
modelled; no input in this development uses them). -/
def escByte (e : Nat) : Option Nat :=
  if e = 34 then some 34
  else if e = 92 then some 92
  else if e = 47 then some 47
  else if e = 110 then some 10
  else if e = 116 then some 9
  else if e = 114 then some 13
  else if e = 98 then some 8
  else if e = 102 then some 12
  else none

/-- Parse a string body after the opening quote; returns content and rest. -/
def parseStringBody : List Nat → Option (List Nat × List Nat)
  | [] => none
  | b :: rest =>
    if b = 34 then some ([], rest)
    else if b = 92 then
      match rest with
      | [] => none
      | e :: rest2 =>
        match escByte e with
        | none => none
        | some c =>
          match parseStringBody rest2 with
          | some (s, r) => some (c :: s, r)
          | none => none
    else
      match parseStringBody rest with
      | some (s, r) => some (b :: s, r)
      | none => none

def isDigitByte (b : Nat) : Bool := decide (48 ≤ b) && decide (b ≤ 57)

/-- Accumulate decimal digits, returning value, digit count and rest. -/
def digitsAux : List Nat → Nat → Nat → Nat × Nat × List Nat
  | [], n, cnt => (n, cnt, [])
  | b :: rest, n, cnt =>
    if isDigitByte b then digitsAux rest (n * 10 + (b - 48)) (cnt + 1)
    else (n, cnt, b :: rest)

/-- Parse an integer literal (optional minus, digits); fraction or exponent
continuations are rejected (outside the integer fragment modelled here). -/
def parseNumber (s : List Nat) : Option (Int × List Nat) :=
  let (neg, s1) := match s with
    | 45 :: r => (true, r)
    | _ => (false, s)
  let (n, cnt, rest) := digitsAux s1 0 0
  if cnt = 0 then none
  else
    match rest with
    | 46 :: _ => none
    | 101 :: _ => none
    | 69 :: _ => none
    | _ => some (if neg then -(n : Int) else (n : Int), rest)

/-- Parser modes: a value, the fields of an object (after `{`, first field
onwards), or the elements of an array (after `[`, first element onwards). -/
inductive PMode where
  | val
  | objFields
  | arrElems

/-- Parser results for the three modes. -/
inductive PRes where
  | v (j : Json)
  | fs (l : List (List Nat × Json))
  | es (l : List Json)

/-- Fuel-indexed recursive descent over the byte list.  Fuel is structural so
that the kernel can evaluate the parser on concrete inputs. -/
def parseCore : Nat → PMode → List Nat → Option (PRes × List Nat)
  | 0, _, _ => none
  | fuel + 1, .val, s =>
    match skipWs s with
    | [] => none
    | b :: rest =>
      if b = 34 then
        match parseStringBody rest with
        | some (str, r) => some (.v (.str str), r)
        | none => none
      else if b = 123 then
        match skipWs rest with
        | 125 :: r => some (.v (.obj []), r)
        | s' =>
          match parseCore fuel .objFields s' with
          | some (.fs l, r) => some (.v (.obj l), r)
          | _ => none
      else if b = 91 then
        match skipWs rest with
        | 93 :: r => some (.v (.arr []), r)
        | s' =>
          match parseCore fuel .arrElems s' with
          | some (.es l, r) => some (.v (.arr l), r)
          | _ => none
      else if b = 116 then
        match rest with
        | 114 :: 117 :: 101 :: r => some (.v (.bool true), r)
        | _ => none
      else if b = 102 then
        match rest with
        | 97 :: 108 :: 115 :: 101 :: r => some (.v (.bool false), r)
        | _ => none
      else if b = 110 then
        match rest with
        | 117 :: 108 :: 108 :: r => some (.v .null, r)
        | _ => none
      else
        match parseNumber (b :: rest) with
        | some (n, r) => some (.v (.num n), r)
        | none => none
  | fuel + 1, .objFields, s =>
    match skipWs s with
    | 34 :: rest =>
      match parseStringBody rest with
      | some (key, r1) =>
        match skipWs r1 with
        | 58 :: r2 =>
          match parseCore fuel .val r2 with
          | some (.v v, r3) =>
            match skipWs r3 with
            | 44 :: r4 =>
              match parseCore fuel .objFields r4 with
              | some (.fs l, r5) => some (.fs ((key, v) :: l), r5)
              | _ => none
            | 125 :: r4 => some (.fs [(key, v)], r4)
            | _ => none
          | _ => none
        | _ => none
      | none => none
    | _ => none
  | fuel + 1, .arrElems, s =>
    match parseCore fuel .val s with
    | some (.v v, r1) =>
      match skipWs r1 with
      | 44 :: r2 =>
        match parseCore fuel .arrElems r2 with
        | some (.es l, r3) => some (.es (v :: l), r3)
        | _ => none
      | 93 :: r2 => some (.es [v], r2)
      | _ => none
    | _ => none

/-- `serde_json` parse of a whole byte slice into a JSON value: one value,
followed only by whitespace. -/
def parseJsonBytes (s : List Nat) : Option Json :=
  match parseCore (3 * s.length + 8) .val s with
  | some (.v v, rest) =>
    match skipWs rest with
    | [] => some v
    | _ => none
  | _ => none

/-! ## The chunk-response schema (`src/api/chat_completion.rs`, lines 286-346)

Strings are byte lists (`String` fields of the Rust structs).  The `logprobs`
subtree (`Option<ChoiceLogprobs>`) carries `f32` leaves; it is retained as raw
JSON here, the only field modelled structurally rather than field-by-field. -/

/-- `Function` (chat_completion.rs lines 229-235): tool-call name/arguments. -/
structure Function where
  name : List Nat
  arguments : List Nat
deriving DecidableEq, Repr

/-- `ChoiceDeltaToolCall` (chat_completion.rs lines 336-346). -/
structure ChoiceDeltaToolCall where
  index : Nat
  id : List Nat
  type : List Nat
  function : Function
deriving DecidableEq, Repr

/-- `ChoiceDelta` (chat_completion.rs lines 322-333). -/
structure ChoiceDelta where
  role : List Nat
  content : Option (List Nat)
  tool_calls : Option (List ChoiceDeltaToolCall)
deriving DecidableEq, Repr

/-- `StreamChoice` (chat_completion.rs lines 303-320). -/
structure StreamChoice where
  index : Nat
  finish_reason : Option (List Nat)
  delta : Option ChoiceDelta
  logprobs : Option Json

/-- `Usage` (chat_completion.rs lines 268-277). -/
structure Usage where
  prompt_tokens : Nat
  completion_tokens : Nat
  total_tokens : Nat
deriving DecidableEq, Repr

/-- `ChatCompletionChunkResponse` (chat_completion.rs lines 286-301). -/
structure ChatCompletionChunkResponse where
  id : List Nat
  model : List Nat
  object : List Nat
  created : Int
  choices : List StreamChoice
  usage : Option Usage

/-! ### Field keys (ASCII byte lists) -/

def kId : List Nat := asciiBytes "id"
def kModel : List Nat := asciiBytes "model"
def kObject : List Nat := asciiBytes "object"
def kCreated : List Nat := asciiBytes "created"
def kChoices : List Nat := asciiBytes "choices"
def kUsage : List Nat := asciiBytes "usage"
def kIndex : List Nat := asciiBytes "index"
def kFinishReason : List Nat := asciiBytes "finish_reason"
def kDelta : List Nat := asciiBytes "delta"
def kLogprobs : List Nat := asciiBytes "logprobs"
def kRole : List Nat := asciiBytes "role"
def kContent : List Nat := asciiBytes "content"
def kToolCalls : List Nat := asciiBytes "tool_calls"
def kType : List Nat := asciiBytes "type"
def kName : List Nat := asciiBytes "name"
def kFunction : List Nat := asciiBytes "function"
def kArguments : List Nat := asciiBytes "arguments"
def kPromptTokens : List Nat := asciiBytes "prompt_tokens"
def kCompletionTokens : List Nat := asciiBytes "completion_tokens"
def kTotalTokens : List Nat := asciiBytes "total_tokens"

/-! ### Schema decoding, following the serde `Deserialize` derives

`serde` derive semantics modelled: unknown object fields are ignored; a field
of `Option` type may be missing or `null`, both decoding to `None`; required
fields must be present with the right shape; `i64`/`usize` numbers must fit
their machine range. -/

/-- First binding of a key in a JSON object's field list. -/
def getField : List (List Nat × Json) → List Nat → Option Json
  | [], _ => none
  | (key, v) :: rest, k => if key = k then some v else getField rest k

/-- Required `String` field. -/
def reqStr (fs : List (List Nat × Json)) (k : List Nat) : Option (List Nat) :=
  match getField fs k with
  | some (.str s) => some s
  | _ => none

/-- `Option<String>` field: missing or `null` is `None`. -/
def optStr (fs : List (List Nat × Json)) (k : List Nat) :
    Option (Option (List Nat)) :=
  match getField fs k with
  | none => some none
  | some .null => some none
  | some (.str s) => some (some s)
  | some _ => none

/-- Required `i64` field: an integer fitting the `i64` range. -/
def reqI64 (fs : List (List Nat × Json)) (k : List Nat) : Option Int :=
  match getField fs k with
  | some (.num n) => if -(2 ^ 63) ≤ n ∧ n < 2 ^ 63 then some n else none
  | _ => none

/-- Required `usize` field: an integer fitting the 64-bit unsigned range. -/
def reqUsize (fs : List (List Nat × Json)) (k : List Nat) : Option Nat :=
  match getField fs k with
  | some (.num n) => if 0 ≤ n ∧ n < 2 ^ 64 then some n.toNat else none
  | _ => none

/-- Required field decoded by `dec`. -/
def reqWith (dec : Json → Option α) (fs : List (List Nat × Json))
    (k : List Nat) : Option α :=
  match getField fs k with
  | some j => dec j
  | none => none

/-- `Option<T>` field for a structured `T`: missing or `null` is `None`,
otherwise the inner decoder must succeed. -/
def optWith (dec : Json → Option α) (fs : List (List Nat × Json))
    (k : List Nat) : Option (Option α) :=
  match getField fs k with
  | none => some none
  | some .null => some none
  | some j => (dec j).map some

/-- Decode every element of a JSON sequence, in order, all required to
succeed. -/
def mapDec (dec : Json → Option α) : List Json → Option (List α)
  | [] => some []
  | x :: t =>
    match dec x with
    | none => none
    | some v =>
      match mapDec dec t with
      | none => none
      | some vs => some (v :: vs)

/-- `Vec<T>`: a JSON array, every element decoded. -/
def decList (dec : Json → Option α) : Json → Option (List α)
  | .arr xs => mapDec dec xs
  | _ => none

def decodeFunction : Json → Option Function
  | .obj fs => do
    let name ← reqStr fs kName
    let arguments ← reqStr fs kArguments
    some ⟨name, arguments⟩
  | _ => none

def decodeToolCall : Json → Option ChoiceDeltaToolCall
  | .obj fs => do
    let index ← reqUsize fs kIndex
    let id ← reqStr fs kId
    let ty ← reqStr fs kType
    let fn ← reqWith decodeFunction fs kFunction
    some ⟨index, id, ty, fn⟩
  | _ => none

def decodeDelta : Json → Option ChoiceDelta
  | .obj fs => do
    let role ← reqStr fs kRole
    let content ← optStr fs kContent
    let tool_calls ← optWith (decList decodeToolCall) fs kToolCalls
    some ⟨role, content, tool_calls⟩
  | _ => none

def decodeStreamChoice : Json → Option StreamChoice
  | .obj fs => do
    let index ← reqUsize fs kIndex
    let finish_reason ← optStr fs kFinishReason
    let delta ← optWith decodeDelta fs kDelta
    let logprobs ← optWith some fs kLogprobs
    some ⟨index, finish_reason, delta, logprobs⟩
  | _ => none

def decodeUsage : Json → Option Usage
  | .obj fs => do
    let prompt_tokens ← reqUsize fs kPromptTokens
    let completion_tokens ← reqUsize fs kCompletionTokens
    let total_tokens ← reqUsize fs kTotalTokens
    some ⟨prompt_tokens, completion_tokens, total_tokens⟩
  | _ => none

def decodeChunk : Json → Option ChatCompletionChunkResponse
  | .obj fs => do
    let id ← reqStr fs kId
    let model ← reqStr fs kModel
    let object ← reqStr fs kObject
    let created ← reqI64 fs kCreated
    let choices ← reqWith (decList decodeStreamChoice) fs kChoices
    let usage ← optWith decodeUsage fs kUsage
    some ⟨id, model, object, created, choices, usage⟩
  | _ => none

/-- `serde_json::from_slice::<ChatCompletionChunkResponse>` (lib.rs line 102). -/
def parseChunkBytes (s : List Nat) : Option ChatCompletionChunkResponse :=
  match parseJsonBytes s with
  | some j => decodeChunk j
  | none => none

/-! ## The streaming loop (`chat_completion_stream`, lib.rs lines 72-107)

The transport is a pure list of byte chunks delivered in order (the
`while let Some(chunk) = res.chunk().await?` loop); end of the list is the
transport's clean end-of-body.  Per chunk the code runs the scan loop
(lines 75-91, which can panic out of bounds), locates the first `{`
(lines 94-100), hands `&chunk[pos..]` to `serde_json` (line 102; failure is
propagated with `?`), and calls `on_message` (line 103); after the loop it
calls `on_end` (line 105) and returns `Ok(())`. -/

/-- How a streaming call terminates abnormally: a Rust panic (out-of-bounds
indexing in the scan loop), or the `serde_json` error propagated by `?` on
line 102. -/
inductive StreamErr where
  | panik
  | decodeErr
deriving DecidableEq, Repr

/-- Observable consumer callbacks of the `MessageEvent` trait (lib.rs 27-30). -/
inductive Event where
  | onMessage (c : ChatCompletionChunkResponse)
  | onEnd

/-- Lines 93-103 of lib.rs for one chunk, without the scan loop: find the
first `{`, decode the suffix, deliver the value or fail. -/
def processChunkNoScan (chunk : List Nat) :
    Except StreamErr ChatCompletionChunkResponse :=
  match parseChunkBytes (sliceForDecode chunk) with
  | some c => .ok c
  | none => .error .decodeErr

/-- Lines 75-103 of lib.rs for one chunk: the scan loop first (a panic aborts
the call), then brace search and decode. -/
def processChunk (chunk : List Nat) :
    Except StreamErr ChatCompletionChunkResponse :=
  match scanChunk chunk with
  | .error _ => .error .panik
  | .ok _ => processChunkNoScan chunk

/-- The whole `chat_completion_stream` read loop over a chunk list: the final
result together with the consumer-callback trace, in order. -/
def runStream : List (List Nat) → Except StreamErr Unit × List Event
  | [] => (.ok (), [.onEnd])
  | c :: rest =>
    match processChunk c with
    | .ok v =>
      let out := runStream rest
      (out.1, .onMessage v :: out.2)
    | .error e => (.error e, [])

/-- The same loop with the scan loop (lines 75-91) deleted, for the
observational-equivalence claim about that loop. -/
def runStreamNoScan : List (List Nat) → Except StreamErr Unit × List Event
  | [] => (.ok (), [.onEnd])
  | c :: rest =>
    match processChunkNoScan c with
    | .ok v =>
      let out := runStreamNoScan rest
      (out.1, .onMessage v :: out.2)
    | .error e => (.error e, [])

/-! ## Encoding (for the round-trip claim)

Modelled from the spec: `ChatCompletionChunkResponse` in
`src/api/chat_completion.rs` derives only `Deserialize`; the repository
contains no serializer for chunk events.  The re-encoder below follows the
spec's schema, "`{id, model, object, created, choices: [{index, delta: {role?,
content?, tool_calls?}, finish_reason?, logprobs?}], usage?}`", emitting every
declared field in declaration order, with `None` optionals as `null`. -/

def encodeOpt (enc : α → Json) : Option α → Json
  | none => .null
  | some v => enc v

def encodeFunction (f : Function) : Json :=
  .obj [(kName, .str f.name), (kArguments, .str f.arguments)]

def encodeToolCall (tc : ChoiceDeltaToolCall) : Json :=
  .obj [(kIndex, .num tc.index), (kId, .str tc.id), (kType, .str tc.type),
        (kFunction, encodeFunction tc.function)]

def encodeDelta (d : ChoiceDelta) : Json :=
  .obj [(kRole, .str d.role),
        (kContent, encodeOpt .str d.content),
        (kToolCalls, encodeOpt (fun l => .arr (l.map encodeToolCall)) d.tool_calls)]

def encodeStreamChoice (c : StreamChoice) : Json :=
  .obj [(kIndex, .num c.index),
        (kFinishReason, encodeOpt .str c.finish_reason),
        (kDelta, encodeOpt encodeDelta c.delta),
        (kLogprobs, encodeOpt id c.logprobs)]

def encodeUsage (u : Usage) : Json :=
  .obj [(kPromptTokens, .num u.prompt_tokens),
        (kCompletionTokens, .num u.completion_tokens),
        (kTotalTokens, .num u.total_tokens)]

def encodeChunk (v : ChatCompletionChunkResponse) : Json :=
  .obj [(kId, .str v.id), (kModel, .str v.model), (kObject, .str v.object),
        (kCreated, .num v.created),
        (kChoices, .arr (v.choices.map encodeStreamChoice)),
        (kUsage, encodeOpt encodeUsage v.usage)]

/-! ## Non-streaming calls (`send_and_log`, lib.rs lines 160-172)

An HTTP response is its status code and body text.  `send_and_log` returns the
response unchanged unless the status is a 4xx client error or 5xx server error
(`reqwest` `StatusCode::is_client_error` / `is_server_error`), in which case
it returns the `anyhow!("API failed: {}", text)` error; the status code is
logged (`info!`) but not placed in the error.  Every non-streaming call
(`chat_completion`, `vision_lite`, `vision_pro`, `embeddings`) sends, applies
`send_and_log`, and then decodes the body (`res.json::<T>()`, whose failure is
a separate error). -/

structure HttpResponse where
  status : Nat
  body : String
deriving DecidableEq, Repr

inductive ApiError where
  | apiFailed (msg : String)
  | bodyDecodeFailed
deriving DecidableEq, Repr

def send_and_log (res : HttpResponse) : Except ApiError HttpResponse :=
  if (400 ≤ res.status ∧ res.status ≤ 499) ∨ (500 ≤ res.status ∧ res.status ≤ 599) then
    .error (.apiFailed ("API failed: " ++ res.body))
  else
    .ok res

/-- The shared shape of the four non-streaming calls after the HTTP send:
`send_and_log` then body decoding, each `?`-propagated. -/
def callViaSendAndLog (decode : String → Option α) (res : HttpResponse) :
    Except ApiError α :=
  match send_and_log res with
  | .error e => .error e
  | .ok r =>
    match decode r.body with
    | some v => .ok v
    | none => .error .bodyDecodeFailed

/-! ## Concrete wire inputs used in the theorems -/

/-- A complete well-formed frame: `data: `, a minimal valid chunk JSON object,
and the `\n\n` delimiter (68 bytes). -/
def goodFrame : List Nat :=
  asciiBytes
    "data: \x7b\"id\":\"1\",\"model\":\"m\",\"object\":\"o\",\"created\":1,\"choices\":[]\x7d\n\n"

/-- The decoded value of `goodFrame`'s payload: id `"1"`, model `"m"`,
object `"o"`, created 1, no choices, no usage. -/
def goodChunkVal : ChatCompletionChunkResponse :=
  ⟨[49], [109], [111], 1, [], none⟩

/-- The sentinel frame `data: [DONE]\n\n` (14 bytes). -/
def doneChunk : List Nat := asciiBytes "data: [DONE]\n\n"

/-- The spec's malformed-frame scenario input `data: {bad json}\n\n`
(18 bytes). -/
def badFrame18 : List Nat := asciiBytes "data: \x7bbad json\x7d\n\n"

/-- A malformed frame long enough (23 bytes) that the scan loop stays in
bounds. -/
def badFrameLong : List Nat := asciiBytes "data: \x7bbad json here\x7d\n\n"

/-- A truncated frame: the transport ends mid-JSON, no delimiter (21 bytes). -/
def truncFrame : List Nat := asciiBytes "data: \x7b\"id\": \"1\", \"mo"

/-- A 7-byte chunk whose whole text is a (schema-invalid) JSON object. -/
def tinyChunk : List Nat := asciiBytes "\x7b\"a\":1\x7d"

/-- A 6-byte chunk: just the field marker, no payload yet. -/
def markerChunk : List Nat := asciiBytes "data: "

/-! ## Well-formedness of decoded chunk values

Exactly the constraints that a successful `decodeChunk` guarantees: machine
integers fit their ranges, and a raw `logprobs` subtree is never the JSON
`null` (serde decodes `null` to `None`, not `Some(null)`). -/

def WFToolCall (tc : ChoiceDeltaToolCall) : Prop := tc.index < 2 ^ 64

def WFDelta (d : ChoiceDelta) : Prop :=
  ∀ l, d.tool_calls = some l → ∀ tc ∈ l, WFToolCall tc

def WFChoice (c : StreamChoice) : Prop :=
  c.index < 2 ^ 64 ∧ (∀ d, c.delta = some d → WFDelta d) ∧
    c.logprobs ≠ some .null

def WFUsage (u : Usage) : Prop :=
  u.prompt_tokens < 2 ^ 64 ∧ u.completion_tokens < 2 ^ 64 ∧
    u.total_tokens < 2 ^ 64

def WFChunk (v : ChatCompletionChunkResponse) : Prop :=
  -(2 ^ 63) ≤ v.created ∧ v.created < 2 ^ 63 ∧
    (∀ c ∈ v.choices, WFChoice c) ∧ (∀ u, v.usage = some u → WFUsage u)

/-! ## Lemmas about the scan loop -/

theorem scanStep_ok_of_lt (c : List Nat) (lc i : Nat) (h : i < c.length) :
    scanStep c lc i = .ok lc := by
  unfold scanStep getBang
  rw [dif_pos h]
  simp only []
  by_cases hb : c.get ⟨i, h⟩ = LINE_FEED
  · rw [if_pos hb]
    by_cases hg : i < c.length - LINE_FEED_COUNT
    · rw [if_pos hg, dif_pos (show i + LINE_FEED_COUNT < c.length by
        unfold LINE_FEED_COUNT at hg ⊢; omega)]
      simp
    · rw [if_neg hg]
  · rw [if_neg hb]

theorem scanStep_ok_inv (c : List Nat) (lc lc' i : Nat)
    (h : scanStep c lc i = .ok lc') : lc' = lc := by
  unfold scanStep at h
  cases hg : getBang c i with
  | error e => rw [hg] at h; simp at h
  | ok b =>
    rw [hg] at h
    simp only [] at h
    by_cases hb : b = LINE_FEED
    · rw [if_pos hb] at h
      by_cases hlt : i < c.length - LINE_FEED_COUNT
      · rw [if_pos hlt] at h
        cases hg2 : getBang c (i + LINE_FEED_COUNT) with
        | error e => rw [hg2] at h; simp at h
        | ok b2 =>
          rw [hg2] at h
          simp only [] at h
          simp at h
          omega
      · rw [if_neg hlt] at h
        exact (Except.ok.inj h).symm
    · rw [if_neg hb] at h
      exact (Except.ok.inj h).symm

theorem scan_foldl_ok (c : List Nat) :
    ∀ (l : List Nat) (lc : Nat), (∀ i ∈ l, i < c.length) →
      l.foldlM (scanStep c) lc = .ok lc := by
  intro l
  induction l with
  | nil => intro lc _; rfl
  | cons a t ih =>
    intro lc h
    rw [List.foldlM_cons, scanStep_ok_of_lt c lc a (h a (List.mem_cons_self a t))]
    exact ih lc fun i hi => h i (List.mem_cons_of_mem a hi)

theorem scan_foldl_inv (c : List Nat) :
    ∀ (l : List Nat) (lc lc' : Nat),
      l.foldlM (scanStep c) lc = .ok lc' → lc' = lc := by
  intro l
  induction l with
  | nil =>
    intro lc lc' h
    exact (Except.ok.inj h).symm
  | cons a t ih =>
    intro lc lc' h
    rw [List.foldlM_cons] at h
    cases hs : scanStep c lc a with
    | error e =>
      rw [hs] at h
      exact Except.noConfusion h
    | ok lc1 =>
      rw [hs] at h
      have h1 : lc1 = lc := scanStep_ok_inv c lc lc1 a hs
      have h2 : lc' = lc1 := ih lc1 lc' h
      omega

theorem scanChunk_ok_of_len (c : List Nat) (h : 19 ≤ c.length) :
    scanChunk c = .ok 0 := by
  unfold scanChunk SEARCH_TAIL
  apply scan_foldl_ok
  intro i hi
  have := List.mem_range.mp hi
  omega

theorem scanChunk_count_zero (c : List Nat) (lc : Nat)
    (h : scanChunk c = .ok lc) : lc = 0 :=
  scan_foldl_inv c _ 0 lc h

theorem processChunk_eq_noScan_of_len (c : List Nat) (h : 19 ≤ c.length) :
    processChunk c = processChunkNoScan c := by
  unfold processChunk
  rw [scanChunk_ok_of_len c h]

theorem runStream_eq_noScan_of_len (chunks : List (List Nat))
    (h : ∀ c ∈ chunks, 19 ≤ c.length) :
    runStream chunks = runStreamNoScan chunks := by
  induction chunks with
  | nil => rfl
  | cons a t ih =>
    have ha := h a (List.mem_cons_self a t)
    have ht := ih fun c hc => h c (List.mem_cons_of_mem a hc)
    conv_lhs => rw [runStream]
    conv_rhs => rw [runStreamNoScan]
    rw [processChunk_eq_noScan_of_len a ha, ht]

theorem processChunk_decodeErr (c : List Nat) (h19 : 19 ≤ c.length)
    (hbad : parseChunkBytes (sliceForDecode c) = none) :
    processChunk c = .error .decodeErr := by
  unfold processChunk processChunkNoScan
  rw [scanChunk_ok_of_len c h19, hbad]

theorem runStream_ok_append (pre : List (List Nat))
    (vs : List ChatCompletionChunkResponse) (L : List (List Nat))
    (h : List.Forall₂ (fun p v => processChunk p = .ok v) pre vs) :
    runStream (pre ++ L) =
      ((runStream L).1, vs.map Event.onMessage ++ (runStream L).2) := by
  induction h with
  | nil => simp
  | cons hp _ ih =>
    rename_i p v pre' vs' _
    rw [List.cons_append]
    conv_lhs => rw [runStream]
    rw [hp, ih]
    simp

theorem findBraceFrom_none (l : List Nat) :
    ∀ i, (∀ b ∈ l, b ≠ LEFT_SIGN) → findBraceFrom l i = none := by
  induction l with
  | nil => intro i _; rfl
  | cons a t ih =>
    intro i h
    unfold findBraceFrom
    rw [if_neg (h a (List.mem_cons_self a t))]
    exact ih (i + 1) fun b hb => h b (List.mem_cons_of_mem a hb)

theorem findBraceFrom_first (l : List Nat) :
    ∀ i j (hj : j < l.length), l.get ⟨j, hj⟩ = LEFT_SIGN →
      (∀ j' (hj' : j' < l.length), j' < j → l.get ⟨j', hj'⟩ ≠ LEFT_SIGN) →
      findBraceFrom l i = some (i + j) := by
  induction l with
  | nil => intro i j hj; exact absurd hj (by simp)
  | cons a t ih =>
    intro i j hj hget hfirst
    unfold findBraceFrom
    cases j with
    | zero =>
      have ha : a = LEFT_SIGN := hget
      rw [if_pos ha]
      simp
    | succ j0 =>
      have ha : a ≠ LEFT_SIGN := hfirst 0 (by simp) (Nat.succ_pos j0)
      rw [if_neg ha]
      have hj0 : j0 < t.length := by simpa using hj
      have := ih (i + 1) j0 hj0 hget
        (fun j' hj' hlt =>
          hfirst (j' + 1) (by simpa using hj') (Nat.succ_lt_succ hlt))
      rw [this]
      congr 1
      omega

/-! ## Decode success implies well-formedness -/

theorem reqUsize_lt_of {fs : List (List Nat × Json)} {k : List Nat} {n : Nat}
    (h : reqUsize fs k = some n) : n < 2 ^ 64 := by
  unfold reqUsize at h
  cases hg : getField fs k with
  | none => rw [hg] at h; exact absurd h (by simp)
  | some j =>
    rw [hg] at h
    cases j <;> simp at h
    case num m =>
      obtain ⟨⟨h0, hlt⟩, hn⟩ := h
      omega

theorem reqI64_range_of {fs : List (List Nat × Json)} {k : List Nat} {n : Int}
    (h : reqI64 fs k = some n) : -(2 ^ 63) ≤ n ∧ n < 2 ^ 63 := by
  unfold reqI64 at h
  cases hg : getField fs k with
  | none => rw [hg] at h; exact absurd h (by simp)
  | some j =>
    rw [hg] at h
    cases j <;> simp at h
    case num m =>
      obtain ⟨⟨h0, hlt⟩, hn⟩ := h
      subst hn
      exact ⟨h0, hlt⟩

theorem reqWith_inv {α} {dec : Json → Option α} {fs : List (List Nat × Json)}
    {k : List Nat} {v : α} (h : reqWith dec fs k = some v) :
    ∃ j, dec j = some v := by
  unfold reqWith at h
  cases hg : getField fs k with
  | none => rw [hg] at h; exact absurd h (by simp)
  | some j =>
    rw [hg] at h
    exact ⟨j, h⟩

theorem optWith_inv {α} {dec : Json → Option α} {fs : List (List Nat × Json)}
    {k : List Nat} {o : Option α} (h : optWith dec fs k = some o) :
    ∀ a, o = some a → ∃ j, j ≠ Json.null ∧ dec j = some a := by
  intro a ha
  subst ha
  unfold optWith at h
  cases hg : getField fs k with
  | none => rw [hg] at h; simp at h
  | some j =>
    rw [hg] at h
    cases j
    case null => simp at h
    all_goals
      rw [Option.map_eq_some'] at h
      obtain ⟨v, hv, he⟩ := h
      rw [Option.some.inj he] at hv
      exact ⟨_, by simp, hv⟩

theorem mapDec_inv {α} {dec : Json → Option α} :
    ∀ {xs : List Json} {l : List α}, mapDec dec xs = some l →
      ∀ a ∈ l, ∃ x, dec x = some a := by
  intro xs
  induction xs with
  | nil =>
    intro l h a ha
    cases Option.some.inj h
    exact absurd ha (by simp)
  | cons x t ih =>
    intro l h a ha
    unfold mapDec at h
    cases hx : dec x with
    | none => rw [hx] at h; exact absurd h (by simp)
    | some v =>
      rw [hx] at h
      simp only [] at h
      cases ht : mapDec dec t with
      | none => rw [ht] at h; exact absurd h (by simp)
      | some vs =>
        rw [ht] at h
        cases Option.some.inj h
        rcases List.mem_cons.mp ha with h1 | h2
        · exact ⟨x, h1 ▸ hx⟩
        · exact ih ht a h2

theorem decList_inv {α} {dec : Json → Option α} {j : Json} {l : List α}
    (h : decList dec j = some l) : ∀ a ∈ l, ∃ x, dec x = some a := by
  cases j <;> simp [decList] at h
  case arr xs => exact mapDec_inv h

theorem decodeToolCall_wf {j : Json} {tc : ChoiceDeltaToolCall}
    (h : decodeToolCall j = some tc) : WFToolCall tc := by
  cases j <;> simp [decodeToolCall] at h
  case obj fs =>
    rw [Option.bind_eq_some] at h
    obtain ⟨i, hi, h⟩ := h
    rw [Option.bind_eq_some] at h
    obtain ⟨id, hid, h⟩ := h
    rw [Option.bind_eq_some] at h
    obtain ⟨ty, hty, h⟩ := h
    rw [Option.bind_eq_some] at h
    obtain ⟨fn, hfn, h⟩ := h
    cases Option.some.inj h
    exact reqUsize_lt_of hi

theorem decodeDelta_wf {j : Json} {d : ChoiceDelta}
    (h : decodeDelta j = some d) : WFDelta d := by
  cases j <;> simp [decodeDelta] at h
  case obj fs =>
    rw [Option.bind_eq_some] at h
    obtain ⟨role, hrole, h⟩ := h
    rw [Option.bind_eq_some] at h
    obtain ⟨content, hcontent, h⟩ := h
    rw [Option.bind_eq_some] at h
    obtain ⟨tcs, htcs, h⟩ := h
    cases Option.some.inj h
    intro l hl tc htc
    obtain ⟨j', _, hj'⟩ := optWith_inv htcs l hl
    obtain ⟨x, hx⟩ := decList_inv hj' tc htc
    exact decodeToolCall_wf hx

theorem decodeStreamChoice_wf {j : Json} {c : StreamChoice}
    (h : decodeStreamChoice j = some c) : WFChoice c := by
  cases j <;> simp [decodeStreamChoice] at h
  case obj fs =>
    rw [Option.bind_eq_some] at h
    obtain ⟨i, hi, h⟩ := h
    rw [Option.bind_eq_some] at h
    obtain ⟨fr, hfr, h⟩ := h
    rw [Option.bind_eq_some] at h
    obtain ⟨delta, hdelta, h⟩ := h
    rw [Option.bind_eq_some] at h
    obtain ⟨lp, hlp, h⟩ := h
    cases Option.some.inj h
    refine ⟨reqUsize_lt_of hi, ?_, ?_⟩
    · intro d hd
      obtain ⟨j', _, hj'⟩ := optWith_inv hdelta d hd
      exact decodeDelta_wf hj'
    · intro hnull
      obtain ⟨j', hne, hj'⟩ := optWith_inv hlp Json.null hnull
      exact hne (Option.some.inj hj')

theorem decodeUsage_wf {j : Json} {u : Usage}
    (h : decodeUsage j = some u) : WFUsage u := by
  cases j <;> simp [decodeUsage] at h
  case obj fs =>
    rw [Option.bind_eq_some] at h
    obtain ⟨p, hp, h⟩ := h
    rw [Option.bind_eq_some] at h
    obtain ⟨ct, hct, h⟩ := h
    rw [Option.bind_eq_some] at h
    obtain ⟨tt, htt, h⟩ := h
    cases Option.some.inj h
    exact ⟨reqUsize_lt_of hp, reqUsize_lt_of hct, reqUsize_lt_of htt⟩

theorem decodeChunk_wf {j : Json} {v : ChatCompletionChunkResponse}
    (h : decodeChunk j = some v) : WFChunk v := by
  cases j <;> simp [decodeChunk] at h
  case obj fs =>
    rw [Option.bind_eq_some] at h
    obtain ⟨id, hid, h⟩ := h
    rw [Option.bind_eq_some] at h
    obtain ⟨model, hmodel, h⟩ := h
    rw [Option.bind_eq_some] at h
    obtain ⟨object, hobject, h⟩ := h
    rw [Option.bind_eq_some] at h
    obtain ⟨created, hcreated, h⟩ := h
    rw [Option.bind_eq_some] at h
    obtain ⟨choices, hchoices, h⟩ := h
    rw [Option.bind_eq_some] at h
    obtain ⟨usage, husage, h⟩ := h
    cases Option.some.inj h
    obtain ⟨hc1, hc2⟩ := reqI64_range_of hcreated
    refine ⟨hc1, hc2, ?_, ?_⟩
    · intro c hc
      obtain ⟨j', hj'⟩ := reqWith_inv hchoices
      obtain ⟨x, hx⟩ := decList_inv hj' c hc
      exact decodeStreamChoice_wf hx
    · intro u hu
      obtain ⟨j', _, hj'⟩ := optWith_inv husage u hu
      exact decodeUsage_wf hj'

/-! ## Re-encoding round-trips on well-formed values -/

theorem reqUsize_of (fs : List (List Nat × Json)) (k : List Nat) (n : Nat)
    (hget : getField fs k = some (.num (n : Int))) (h : n < 2 ^ 64) :
    reqUsize fs k = some n := by
  unfold reqUsize
  rw [hget]
  show (if 0 ≤ (n : Int) ∧ (n : Int) < 2 ^ 64
      then some ((n : Int)).toNat else none) = some n
  rw [if_pos ⟨Int.natCast_nonneg n, by exact_mod_cast h⟩, Int.toNat_natCast]

theorem reqI64_of (fs : List (List Nat × Json)) (k : List Nat) (n : Int)
    (hget : getField fs k = some (.num n)) (h1 : -(2 ^ 63) ≤ n)
    (h2 : n < 2 ^ 63) : reqI64 fs k = some n := by
  unfold reqI64
  rw [hget]
  show (if -(2 ^ 63) ≤ n ∧ n < 2 ^ 63 then some n else none) = some n
  rw [if_pos ⟨h1, h2⟩]

theorem reqWith_of {α} (dec : Json → Option α) (fs : List (List Nat × Json))
    (k : List Nat) (j : Json) (v : α) (hget : getField fs k = some j)
    (hd : dec j = some v) : reqWith dec fs k = some v := by
  unfold reqWith
  rw [hget]
  exact hd

theorem optWith_some {α} (dec : Json → Option α) (fs : List (List Nat × Json))
    (k : List Nat) (j : Json) (v : α) (hget : getField fs k = some j)
    (hne : j ≠ Json.null) (hd : dec j = some v) :
    optWith dec fs k = some (some v) := by
  unfold optWith
  rw [hget]
  cases j
  case null => exact absurd rfl hne
  all_goals simp only [hd, Option.map_some']

theorem decodeFunction_encode (f : Function) :
    decodeFunction (encodeFunction f) = some f := by
  cases f
  rfl

theorem decodeToolCall_encode (a : ChoiceDeltaToolCall)
    (ha : WFToolCall a) :
    decodeToolCall (encodeToolCall a) = some a := by
  obtain ⟨i, id, ty, ⟨fn, fa⟩⟩ := a
  have h1 : reqUsize [(kIndex, Json.num (i : Int)), (kId, .str id),
      (kType, .str ty), (kFunction, encodeFunction ⟨fn, fa⟩)] kIndex
      = some i := reqUsize_of _ _ _ rfl ha
  simp only [encodeToolCall, decodeToolCall]
  rw [h1]
  rfl

theorem mapDec_encode {α} (dec : Json → Option α) (enc : α → Json)
    (l : List α) (h : ∀ a ∈ l, dec (enc a) = some a) :
    mapDec dec (l.map enc) = some l := by
  induction l with
  | nil => rfl
  | cons a t ih =>
    rw [List.map_cons]
    unfold mapDec
    rw [h a (List.mem_cons_self a t)]
    simp only []
    rw [ih fun b hb => h b (List.mem_cons_of_mem a hb)]

theorem decodeDelta_encode (d : ChoiceDelta) (h : WFDelta d) :
    decodeDelta (encodeDelta d) = some d := by
  obtain ⟨role, content, tcs⟩ := d
  cases tcs with
  | none => cases content <;> rfl
  | some l =>
    have hl : ∀ tc ∈ l, WFToolCall tc := h l rfl
    have hmap : decList decodeToolCall (Json.arr (l.map encodeToolCall))
        = some l := mapDec_encode decodeToolCall encodeToolCall l
          fun tc htc => decodeToolCall_encode tc (hl tc htc)
    cases content with
    | none =>
      have h2 : optWith (decList decodeToolCall)
          [(kRole, Json.str role), (kContent, Json.null),
           (kToolCalls, Json.arr (l.map encodeToolCall))] kToolCalls
          = some (some l) :=
        optWith_some _ _ _ _ _ rfl (by simp) hmap
      simp only [encodeDelta, decodeDelta, encodeOpt]
      rw [h2]
      rfl
    | some str0 =>
      have h2 : optWith (decList decodeToolCall)
          [(kRole, Json.str role), (kContent, Json.str str0),
           (kToolCalls, Json.arr (l.map encodeToolCall))] kToolCalls
          = some (some l) :=
        optWith_some _ _ _ _ _ rfl (by simp) hmap
      simp only [encodeDelta, decodeDelta, encodeOpt]
      rw [h2]
      rfl

theorem decodeUsage_encode (u : Usage) (h : WFUsage u) :
    decodeUsage (encodeUsage u) = some u := by
  obtain ⟨p, ct, tt⟩ := u
  obtain ⟨h1, h2, h3⟩ := h
  have e1 : reqUsize [(kPromptTokens, Json.num (p : Int)),
      (kCompletionTokens, Json.num (ct : Int)),
      (kTotalTokens, Json.num (tt : Int))] kPromptTokens = some p :=
    reqUsize_of _ _ _ rfl h1
  have e2 : reqUsize [(kPromptTokens, Json.num (p : Int)),
      (kCompletionTokens, Json.num (ct : Int)),
      (kTotalTokens, Json.num (tt : Int))] kCompletionTokens = some ct :=
    reqUsize_of _ _ _ rfl h2
  have e3 : reqUsize [(kPromptTokens, Json.num (p : Int)),
      (kCompletionTokens, Json.num (ct : Int)),
      (kTotalTokens, Json.num (tt : Int))] kTotalTokens = some tt :=
    reqUsize_of _ _ _ rfl h3
  simp only [encodeUsage, decodeUsage]
  rw [e1, e2, e3]
  rfl


theorem decodeStreamChoice_encode (c : StreamChoice) (h : WFChoice c) :
    decodeStreamChoice (encodeStreamChoice c) = some c := by
  obtain ⟨i, fr, delta, lp⟩ := c
  obtain ⟨hi, hd, hlp⟩ := h
  cases delta with
  | none =>
    cases lp with
    | none =>
      have e1 : reqUsize [(kIndex, Json.num (i : Int)),
          (kFinishReason, encodeOpt Json.str fr),
          (kDelta, encodeOpt encodeDelta none),
          (kLogprobs, encodeOpt id none)] kIndex = some i :=
        reqUsize_of _ _ _ rfl hi
      simp only [encodeStreamChoice, decodeStreamChoice]
      rw [e1]
      cases fr <;> rfl
    | some j =>
      have hne : j ≠ Json.null := fun he => hlp (by rw [he])
      have e1 : reqUsize [(kIndex, Json.num (i : Int)),
          (kFinishReason, encodeOpt Json.str fr),
          (kDelta, encodeOpt encodeDelta none),
          (kLogprobs, encodeOpt id (some j))] kIndex = some i :=
        reqUsize_of _ _ _ rfl hi
      have e2 : optWith some [(kIndex, Json.num (i : Int)),
          (kFinishReason, encodeOpt Json.str fr),
          (kDelta, encodeOpt encodeDelta none),
          (kLogprobs, encodeOpt id (some j))] kLogprobs = some (some j) :=
        optWith_some _ _ _ _ _ rfl hne rfl
      simp only [encodeStreamChoice, decodeStreamChoice]
      rw [e1, e2]
      cases fr <;> rfl
  | some d =>
    have hwfd : WFDelta d := hd d rfl
    cases lp with
    | none =>
      have e1 : reqUsize [(kIndex, Json.num (i : Int)),
          (kFinishReason, encodeOpt Json.str fr),
          (kDelta, encodeOpt encodeDelta (some d)),
          (kLogprobs, encodeOpt id none)] kIndex = some i :=
        reqUsize_of _ _ _ rfl hi
      have e2 : optWith decodeDelta [(kIndex, Json.num (i : Int)),
          (kFinishReason, encodeOpt Json.str fr),
          (kDelta, encodeOpt encodeDelta (some d)),
          (kLogprobs, encodeOpt id none)] kDelta = some (some d) :=
        optWith_some _ _ _ _ _ rfl (by simp [encodeOpt, encodeDelta])
          (decodeDelta_encode d hwfd)
      simp only [encodeStreamChoice, decodeStreamChoice]
      rw [e1, e2]
      cases fr <;> rfl
    | some j =>
      have hne : j ≠ Json.null := fun he => hlp (by rw [he])
      have e1 : reqUsize [(kIndex, Json.num (i : Int)),
          (kFinishReason, encodeOpt Json.str fr),
          (kDelta, encodeOpt encodeDelta (some d)),
          (kLogprobs, encodeOpt id (some j))] kIndex = some i :=
        reqUsize_of _ _ _ rfl hi
      have e2 : optWith decodeDelta [(kIndex, Json.num (i : Int)),
          (kFinishReason, encodeOpt Json.str fr),
          (kDelta, encodeOpt encodeDelta (some d)),
          (kLogprobs, encodeOpt id (some j))] kDelta = some (some d) :=
        optWith_some _ _ _ _ _ rfl (by simp [encodeOpt, encodeDelta])
          (decodeDelta_encode d hwfd)
      have e3 : optWith some [(kIndex, Json.num (i : Int)),
          (kFinishReason, encodeOpt Json.str fr),
          (kDelta, encodeOpt encodeDelta (some d)),
          (kLogprobs, encodeOpt id (some j))] kLogprobs = some (some j) :=
        optWith_some _ _ _ _ _ rfl hne rfl
      simp only [encodeStreamChoice, decodeStreamChoice]
      rw [e1, e2, e3]
      cases fr <;> rfl

theorem decodeChunk_encode (v : ChatCompletionChunkResponse) (h : WFChunk v) :
    decodeChunk (encodeChunk v) = some v := by
  obtain ⟨id, model, object, created, choices, usage⟩ := v
  obtain ⟨h1, h2, h3, h4⟩ := h
  have hmap : decList decodeStreamChoice
      (Json.arr (choices.map encodeStreamChoice)) = some choices :=
    mapDec_encode decodeStreamChoice encodeStreamChoice choices
      fun c hc => decodeStreamChoice_encode c (h3 c hc)
  cases usage with
  | none =>
    have e1 : reqI64 [(kId, Json.str id), (kModel, Json.str model),
        (kObject, Json.str object), (kCreated, Json.num created),
        (kChoices, Json.arr (choices.map encodeStreamChoice)),
        (kUsage, encodeOpt encodeUsage none)] kCreated = some created :=
      reqI64_of _ _ _ rfl h1 h2
    have e2 : reqWith (decList decodeStreamChoice)
        [(kId, Json.str id), (kModel, Json.str model),
        (kObject, Json.str object), (kCreated, Json.num created),
        (kChoices, Json.arr (choices.map encodeStreamChoice)),
        (kUsage, encodeOpt encodeUsage none)] kChoices = some choices :=
      reqWith_of _ _ _ _ _ rfl hmap
    simp only [encodeChunk, decodeChunk]
    rw [e1, e2]
    rfl
  | some u =>
    have e1 : reqI64 [(kId, Json.str id), (kModel, Json.str model),
        (kObject, Json.str object), (kCreated, Json.num created),
        (kChoices, Json.arr (choices.map encodeStreamChoice)),
        (kUsage, encodeOpt encodeUsage (some u))] kCreated = some created :=
      reqI64_of _ _ _ rfl h1 h2
    have e2 : reqWith (decList decodeStreamChoice)
        [(kId, Json.str id), (kModel, Json.str model),
        (kObject, Json.str object), (kCreated, Json.num created),
        (kChoices, Json.arr (choices.map encodeStreamChoice)),
        (kUsage, encodeOpt encodeUsage (some u))] kChoices = some choices :=
      reqWith_of _ _ _ _ _ rfl hmap
    have e3 : optWith decodeUsage [(kId, Json.str id),
        (kModel, Json.str model),
        (kObject, Json.str object), (kCreated, Json.num created),
        (kChoices, Json.arr (choices.map encodeStreamChoice)),
        (kUsage, encodeOpt encodeUsage (some u))] kUsage = some (some u) :=
      optWith_some _ _ _ _ _ rfl (by simp [encodeOpt, encodeUsage])
        (decodeUsage_encode u (h4 u rfl))
    simp only [encodeChunk, decodeChunk]
    rw [e1, e2, e3]
    rfl

theorem decodeChunk_roundtrip {j : Json} {v : ChatCompletionChunkResponse}
    (h : decodeChunk j = some v) : decodeChunk (encodeChunk v) = some v :=
  decodeChunk_encode v (decodeChunk_wf h)

/-! ## Claim theorems -/

/-- Claim C1: the claim says splitting well-formed frames across transport
chunks preserves the decoded frame sequence.  The code has no cross-chunk
buffer: the very same frame bytes decode to one frame when delivered whole,
but splitting them at offset 35 makes the call fail with the serde error and
deliver zero frames. -/
theorem splitFrameStreamFails :
    runStream [goodFrame] = (.ok (), [.onMessage goodChunkVal, .onEnd]) ∧
    goodFrame.take 35 ++ goodFrame.drop 35 = goodFrame ∧
    runStream [goodFrame.take 35, goodFrame.drop 35] =
      (.error .decodeErr, []) :=
  ⟨rfl, List.take_append_drop 35 goodFrame, rfl⟩

/-- Claim C2: the claim says a `[DONE]` frame yields the `Done` event,
`on_end`, and the `Completed` state.  The code has no sentinel check at all:
on the 14-byte chunk `data: [DONE]\n\n` the scan loop indexes past the end of
the chunk (a Rust panic), `on_end` is never called, and no `Done` event
exists. -/
theorem doneSentinelPanics :
    runStream [doneChunk] = (.error .panik, []) := rfl

/-- Claim C3: the claim says clean end-of-body without a sentinel yields a
`ProtocolViolationError` and no `on_end`.  The code does the opposite: when
the transport runs out of chunks the loop simply exits, `on_end` is invoked,
and the call returns success — here shown on a stream of two valid frames and
no sentinel. -/
theorem cleanEofReportsSuccess :
    runStream [goodFrame, goodFrame] =
      (.ok (), [.onMessage goodChunkVal, .onMessage goodChunkVal, .onEnd]) :=
  rfl

/-- Claim C4 counterexample: at the claim's own example input
`data: {bad json}\n\n` (18 bytes) the terminal outcome is the scan loop's
out-of-bounds panic, not a `PayloadDecodeError`. -/
theorem badFrame18Panics :
    badFrame18.length = 18 ∧ runStream [badFrame18] = (.error .panik, []) :=
  ⟨rfl, rfl⟩

/-- Claim C4 (amended to chunks of at least 19 bytes, on which the scan loop
stays in bounds): a frame whose payload fails to parse produces no
`on_message` for that frame, no `on_end`, terminates the call with the single
decode error, reads nothing further from the transport, and deliveries made
for earlier chunks stand. -/
theorem malformedFrameFailFast (pre : List (List Nat))
    (vs : List ChatCompletionChunkResponse) (c : List Nat)
    (rest rest' : List (List Nat))
    (hpre : List.Forall₂ (fun p v => processChunk p = .ok v) pre vs)
    (hlen : 19 ≤ c.length)
    (hbad : parseChunkBytes (sliceForDecode c) = none) :
    runStream (pre ++ c :: rest) = (.error .decodeErr, vs.map .onMessage) ∧
    runStream (pre ++ c :: rest') = runStream (pre ++ c :: rest) := by
  have hc : processChunk c = .error .decodeErr :=
    processChunk_decodeErr c hlen hbad
  have hcr : ∀ r : List (List Nat),
      runStream (c :: r) = (.error .decodeErr, []) := by
    intro r
    conv_lhs => rw [runStream]
    rw [hc]
  constructor
  · rw [runStream_ok_append pre vs (c :: rest) hpre, hcr rest]
    simp
  · rw [runStream_ok_append pre vs (c :: rest) hpre,
      runStream_ok_append pre vs (c :: rest') hpre, hcr rest, hcr rest']

/-- Witness for C4's amended theorem at a concrete stream: one valid frame,
then a 23-byte malformed frame, then a further pending chunk. -/
theorem malformedFrameFailFastWitness :
    List.Forall₂ (fun p v => processChunk p = .ok v) [goodFrame]
      [goodChunkVal] ∧
    19 ≤ badFrameLong.length ∧
    parseChunkBytes (sliceForDecode badFrameLong) = none ∧
    runStream ([goodFrame] ++ badFrameLong :: [[48]]) =
      (.error .decodeErr, [.onMessage goodChunkVal]) := by
  have h1 : List.Forall₂ (fun p v => processChunk p = .ok v) [goodFrame]
      [goodChunkVal] := List.Forall₂.cons rfl List.Forall₂.nil
  refine ⟨h1, by decide, rfl, ?_⟩
  exact (malformedFrameFailFast [goodFrame] [goodChunkVal] badFrameLong
    [[48]] [[48]] h1 (by decide) rfl).1

/-- Claim C5: the claim says every chunk is processed with only in-bounds
accesses and without aborting.  On the 6-byte chunk `data: ` the scan loop
(which always runs `chunk_len / 2 + SEARCH_TAIL` iterations) indexes the
chunk out of bounds and the call aborts with a panic. -/
theorem scanLoopOutOfBounds :
    markerChunk.length = 6 ∧
    scanChunk markerChunk = .error .indexOutOfBounds ∧
    runStream [markerChunk] = (.error .panik, []) :=
  ⟨rfl, rfl, rfl⟩

/-- Claim C6: the claim says a partial frame still buffered at end-of-body is
reported as a `FrameTruncationError` by finalization.  The code has no buffer
and no finalization: the truncated 21-byte frame is handed to the JSON
decoder immediately and the call fails with the decode error instead (and for
truncated chunks under 19 bytes it panics, cf. C5). -/
theorem truncatedStreamDecodeError :
    truncFrame.length = 21 ∧
    runStream [truncFrame] = (.error .decodeErr, []) :=
  ⟨by decide, rfl⟩

/-- Claim C7 counterexample: the scan loop is not observationally inert — on
the 7-byte chunk `{"a":1}` the function with the loop panics while the
function without it returns the serde decode error. -/
theorem scanLoopObservable :
    runStream [tinyChunk] ≠ runStreamNoScan [tinyChunk] := by
  intro h
  rw [show runStream [tinyChunk] = (.error .panik, []) from rfl,
    show runStreamNoScan [tinyChunk] = (.error .decodeErr, []) from rfl] at h
  simp at h

/-- Claim C7 (amended): the comparison `last_pos + 1 == i` is indeed never
true — whenever the scan loop completes, `line_count` is 0 — but the loop is
not effect-free: removing it changes behaviour on chunks shorter than 19
bytes.  Observational equivalence holds exactly when every chunk is at least
19 bytes long, so that the loop's indexing stays in bounds. -/
theorem scanLoopDeadCompare :
    (∀ c lc, scanChunk c = .ok lc → lc = 0) ∧
    (∀ chunks : List (List Nat), (∀ c ∈ chunks, 19 ≤ c.length) →
      runStream chunks = runStreamNoScan chunks) :=
  ⟨fun c lc h => scanChunk_count_zero c lc h,
   fun chunks h => runStream_eq_noScan_of_len chunks h⟩

/-- Witness for C7's amended theorem on a concrete all-long-chunk stream. -/
theorem scanLoopDeadCompareWitness :
    (∀ c ∈ [goodFrame], 19 ≤ c.length) ∧
    runStream [goodFrame] = runStreamNoScan [goodFrame] := by
  have h : ∀ c ∈ [goodFrame], 19 ≤ c.length := by
    intro c hc
    rw [List.mem_singleton.mp hc]
    decide
  exact ⟨h, scanLoopDeadCompare.2 [goodFrame] h⟩

/-- Claim C8: the slice handed to the JSON decoder is exactly the suffix of
the chunk from the first `{` byte, and the whole chunk when no `{` occurs
(`processChunkNoScan` decodes `parseChunkBytes (sliceForDecode chunk)` by
definition). -/
theorem sliceForDecodeFirstBrace (c : List Nat) :
    ((∀ b ∈ c, b ≠ LEFT_SIGN) → sliceForDecode c = c) ∧
    (∀ j (hj : j < c.length), c.get ⟨j, hj⟩ = LEFT_SIGN →
      (∀ j' (hj' : j' < c.length), j' < j → c.get ⟨j', hj'⟩ ≠ LEFT_SIGN) →
      sliceForDecode c = c.drop j) := by
  constructor
  · intro h
    unfold sliceForDecode findBracePos
    rw [findBraceFrom_none c 0 h]
    rfl
  · intro j hj hget hfirst
    unfold sliceForDecode findBracePos
    rw [findBraceFrom_first c 0 j hj hget hfirst]
    simp only []
    rw [Nat.zero_add]

/-- Witness for C8 at two concrete chunks: one without a brace (the whole
chunk is handed over) and one with its first brace at index 6. -/
theorem sliceForDecodeFirstBraceWitness :
    sliceForDecode markerChunk = markerChunk ∧
    sliceForDecode (asciiBytes "data: \x7b\x7d") = (asciiBytes "data: \x7b\x7d").drop 6 :=
  ⟨(sliceForDecodeFirstBrace markerChunk).1 (by decide),
   (sliceForDecodeFirstBrace (asciiBytes "data: \x7b\x7d")).2 6 (by decide)
     (by decide) (by decide)⟩

/-- Claim C9 counterexample: the error returned for a 4xx/5xx response does
not carry the status code — a 404 and a 502 with the same body produce the
very same error value, which therefore cannot carry the status; only the body
text is carried. -/
theorem sendAndLogErrorSameForStatuses :
    send_and_log ⟨404, "oops"⟩ = .error (.apiFailed "API failed: oops") ∧
    send_and_log ⟨502, "oops"⟩ = .error (.apiFailed "API failed: oops") ∧
    send_and_log ⟨404, "oops"⟩ = send_and_log ⟨502, "oops"⟩ :=
  ⟨rfl, rfl, rfl⟩

/-- Claim C9 (amended): every non-streaming call (all four share the
`send_and_log`-then-decode-body shape) returns, for any 4xx or 5xx status,
the single error `API failed: <body>` carrying the response body text (the
status code is only logged), and no decoded value. -/
theorem sendAndLogErrorCarriesBody {α} (decode : String → Option α)
    (res : HttpResponse) (h4 : 400 ≤ res.status) (h5 : res.status ≤ 599) :
    callViaSendAndLog decode res =
      .error (.apiFailed ("API failed: " ++ res.body)) := by
  unfold callViaSendAndLog send_and_log
  rw [if_pos (by omega)]

/-- Witness for C9's amended theorem at status 404. -/
theorem sendAndLogErrorCarriesBodyWitness :
    400 ≤ (404 : Nat) ∧ (404 : Nat) ≤ 599 ∧
    callViaSendAndLog (fun _ => some (0 : Nat)) ⟨404, "x"⟩ =
      .error (.apiFailed "API failed: x") :=
  ⟨by decide, by decide,
   sendAndLogErrorCarriesBody (fun _ => some (0 : Nat)) ⟨404, "x"⟩
     (by decide) (by decide)⟩

/-- Claim C10: decoding a sequence of chunk events and re-encoding it is
lossless — the re-encoded events decode back to exactly the same values
(hence the same `id`, `model`, `created`, per-choice `delta` and
`finish_reason`).  The re-encoder is modelled from the spec's schema, since
the Rust chunk type derives only `Deserialize`. -/
theorem chunkDecodeEncodeRoundtrip (js : List Json)
    (vs : List ChatCompletionChunkResponse)
    (h : List.Forall₂ (fun j v => decodeChunk j = some v) js vs) :
    List.Forall₂ (fun j v => decodeChunk j = some v) (vs.map encodeChunk) vs := by
  induction h with
  | nil => exact List.Forall₂.nil
  | cons hp _ ih =>
    exact List.Forall₂.cons (decodeChunk_roundtrip hp) ih

/-- Witness for C10 on a one-event sequence. -/
theorem chunkDecodeEncodeRoundtripWitness :
    List.Forall₂ (fun j v => decodeChunk j = some v)
      [Json.obj [(kId, .str [49]), (kModel, .str [109]),
        (kObject, .str [111]), (kCreated, .num 1), (kChoices, .arr [])]]
      [goodChunkVal] ∧
    List.Forall₂ (fun j v => decodeChunk j = some v)
      ([goodChunkVal].map encodeChunk) [goodChunkVal] := by
  have h1 : List.Forall₂ (fun j v => decodeChunk j = some v)
      [Json.obj [(kId, .str [49]), (kModel, .str [109]),
        (kObject, .str [111]), (kCreated, .num 1), (kChoices, .arr [])]]
      [goodChunkVal] := List.Forall₂.cons rfl List.Forall₂.nil
  exact ⟨h1, chunkDecodeEncodeRoundtrip _ _ h1⟩

end VolcSdk
